import Mathlib

/-!
Shallow embedding of the Xider Python driver (`xider/__init__.py`), covering
the argument-to-path mapping algorithm of `Driver.command` (with its
backtracking over trailing dynamic template entries), the command template
registry `Driver.arg_names`, and the response-code interpretation tail of
`Driver.command`.

Modelling decisions:
* Python `str`/`bytes` argument values are modelled as `String`; the
  bytes-vs-text distinction of results is kept in the `RValue` type.
* `self.decode_responses` (a codec string or a falsy value in Python) is
  modelled by its truthiness as a `Bool`.
* Python sequence indexing `t[k]` is modelled by `pyGet`, including the
  negative-index wrap-around and the `IndexError` outside `[-len, len)`.
* The external store (`ydb.set` / `ydb.get` on the `xider` namespace) is not
  mutated in-model; instead each run records a trace of `Event`s (writes, the
  call-interface invocation, reads), and reads consult an ambient
  `Store` function.  The integer status code produced by `M.call` is a
  parameter of the run.
-/

namespace Xider

/-- A resolved template entry before path normalisation: either a bare string
or a tuple of path components (Python `subscript` just before the
`isinstance(subscript, tuple)` check). -/
inductive Resolved where
  | str (s : String)
  | tup (p : List String)

/-- Path normalisation: `subscripts = subscript if isinstance(subscript, tuple)
else (subscript,)`. -/
def Resolved.toPath : Resolved → List String
  | .str s => [s]
  | .tup p => p

/-- One entry of a command template: a static value or a dynamic generator
taking the 1-based argument position (a Python lambda in the source). -/
inductive Entry where
  | static (r : Resolved)
  | dyn (f : Nat → Resolved)

/-- Python `callable(entry)` for a template entry. -/
def Entry.callable : Entry → Bool
  | .static _ => false
  | .dyn _ => true

/-- Resolve an entry at a 1-based argument position: `if callable(subscript):
subscript = subscript(i+1)`. -/
def Entry.resolve : Entry → Nat → Resolved
  | .static r, _ => r
  | .dyn f, pos => f pos

/-- Python sequence indexing `t[i]` with an `Int` index: wraps negative
indices by the length, and returns `none` (an `IndexError`) outside
`[-len t, len t)`. -/
def pyGet (t : List Entry) (i : Int) : Option Entry :=
  if 0 ≤ i then t[i.toNat]?
  else if 0 ≤ i + t.length then t[(i + t.length).toNat]?
  else none

theorem pyGet_lower_bound {t : List Entry} {i : Int} {e : Entry}
    (h : pyGet t i = some e) : -(t.length : Int) ≤ i := by
  unfold pyGet at h
  split at h
  · omega
  · split at h
    · omega
    · exact absurd h (by simp)

theorem pyGet_ofNat (t : List Entry) (k : Nat) : pyGet t (k : Int) = t[k]? := by
  simp [pyGet]

/-- One structural-recursion presentation (on a fuel counter) of the
`while callable(arg_names[i-1-backtrack]): backtrack += 1` loop of
`Driver.command`: walk backward from entry `i - 1 - backtrack`, incrementing
`backtrack` past every callable entry; `none` models the `IndexError` raised
when the (Python-wrapped) index under-runs the sequence.  `rewindAux_irrel`
below shows the fuel is irrelevant once above the loop's iteration bound, so
`rewind` (which supplies an adequate fuel) is the loop itself. -/
def rewindAux (t : List Entry) (i : Nat) : Nat → Nat → Option Nat
  | _, 0 => none
  | backtrack, fuel + 1 =>
    match pyGet t ((i : Int) - 1 - backtrack) with
    | none => none
    | some e =>
      if e.callable then rewindAux t i (backtrack + 1) fuel
      else some backtrack

/-- The backward walk of `Driver.command`, with fuel covering the worst case
(every probe callable until the index under-runs at `-len t - 1`). -/
def rewind (t : List Entry) (i : Nat) (backtrack : Nat) : Option Nat :=
  rewindAux t i backtrack (t.length + i + 1 - backtrack)

theorem rewindAux_irrel (t : List Entry) (i : Nat) :
    ∀ (f1 f2 bt : Nat), t.length + i - bt < f1 → t.length + i - bt < f2 →
      rewindAux t i bt f1 = rewindAux t i bt f2 := by
  intro f1
  induction f1 with
  | zero => intro f2 bt h1 _; omega
  | succ a ih =>
    intro f2 bt h1 h2
    match f2, h2 with
    | b + 1, _ =>
      show rewindAux t i bt (a + 1) = rewindAux t i bt (b + 1)
      simp only [rewindAux]
      cases hg : pyGet t ((i : Int) - 1 - bt) with
      | none => rfl
      | some e =>
        have hlb := pyGet_lower_bound hg
        cases hc : e.callable with
        | false => simp [hc]
        | true =>
          simp only [hc, if_true]
          exact ih b (bt + 1) (by omega) (by omega)

/-- The `if i-backtrack >= len(arg_names): while ...` guard of one loop
step: the `backtrack` value used for the current argument, `none` when the
backward walk raised an `IndexError`. -/
def newBacktrack (t : List Entry) (i : Nat) (backtrack : Nat) : Option Nat :=
  if (t.length : Int) ≤ (i : Int) - backtrack then rewind t i backtrack
  else some backtrack

/-- The argument-mapping loop of `Driver.command`
(`for i, arg in enumerate(args): ...`), started at argument index `i` with
the current `backtrack` value.  Returns the `(path, value)` pairs emitted by
`ydb.set('xider', subscripts, arg)` in order, paired with `true` when the
loop completed and `false` when an `IndexError` stopped it (pairs emitted
before the error are kept). -/
def mapArgsAux (t : List Entry) (args : List String) (i : Nat)
    (backtrack : Nat) : List (List String × String) × Bool :=
  match args with
  | [] => ([], true)
  | arg :: rest =>
    match newBacktrack t i backtrack with
    | none => ([], false)
    | some bt =>
      match pyGet t ((i : Int) - bt) with
      | none => ([], false)
      | some e =>
        let r := mapArgsAux t rest (i + 1) bt
        (((e.resolve (i + 1)).toPath, arg) :: r.1, r.2)

/-- Argument-to-path mapping of one `Driver.command` call: index and
`backtrack` both start at 0. -/
def mapArgs (t : List Entry) (args : List String) :
    List (List String × String) × Bool :=
  mapArgsAux t args 0 0

/-- Python `cmd.upper()`: per-character ASCII upper-casing. -/
def pyUpper (s : String) : String :=
  ⟨s.data.map Char.toUpper⟩

/-- Embeds `Driver.arg_names_default = ('key', 'value')`. -/
def arg_names_default : List Entry :=
  [.static (.str "key"), .static (.str "value")]

/-- Embeds `Driver.arg_names`: the per-command template dictionary. -/
def arg_names (cmd : String) : Option (List Entry) :=
  if cmd = "SET" then
    some [.static (.str "key"), .static (.str "value"),
      .dyn (fun i => .tup ["params" ++ toString ((i : Int) - 2)])]
  else if cmd = "DEL" then
    some [.dyn (fun i => .tup ["keys", toString i])]
  else if cmd = "HSET" then
    some [.static (.str "key"),
      .dyn (fun i => .tup ["data", toString (i / 2), "field"]),
      .dyn (fun i => .tup ["data", toString (i / 2), "value"])]
  else if cmd = "HGET" then
    some [.static (.str "key"), .static (.str "field")]
  else if cmd = "HDEL" then
    some [.static (.str "key"),
      .dyn (fun i => .tup ["fields", toString ((i : Int) - 1)])]
  else if cmd = "HINCRBY" then
    some [.static (.str "key"), .static (.str "field"),
      .static (.str "increment")]
  else if cmd = "INCRBY" then
    some [.static (.str "key"), .static (.str "increment")]
  else if cmd = "WATCH" then
    some [.dyn (fun i => .tup ["keys", toString i])]
  else none

/-- Embeds `self.arg_names.get(cmd, self.arg_names_default)`. -/
def lookupTemplate (cmd : String) : List Entry :=
  (arg_names cmd).getD arg_names_default

/-- Observable actions of one `Driver.command` run against the external
store and call interface. -/
inductive Event where
  | setE (path : List String) (value : String)
  | callE (cmd : String)
  | getE (path : List String)
deriving DecidableEq

/-- Whether an event is a store write (`ydb.set`). -/
def Event.isSet : Event → Bool
  | .setE _ _ => true
  | _ => false

/-- Typed result of `Driver.command`: a Python int, text string, or raw
bytes value. -/
inductive RValue where
  | int (n : Int)
  | str (s : String)
  | bytes (b : String)
deriving DecidableEq

/-- The external hierarchical store, read at a path under the `xider`
namespace; `none` models a path that was never written. -/
def Store : Type := List String → Option String

/-- The commands for which a nonnegative status code is returned directly:
`['DEL', 'HSET', 'HDEL']`. -/
def countCmds : List String := ["DEL", "HSET", "HDEL"]

/-- The response-interpretation tail of `Driver.command`, from
`if ret >= 0 and cmd in ['DEL', 'HSET', 'HDEL']` onward.  Returns the read
events performed and the result; `Except.error` models the uncaught
exception of `ydb.get` on a never-written path. -/
def interpretResponse (decode : Bool) (cmd : String) (ret : Int)
    (store : Store) : List Event × Except String RValue :=
  if 0 ≤ ret ∧ cmd ∈ countCmds then ([], .ok (.int ret))
  else if ret = 0 then ([], .ok (if decode then .str "OK" else .bytes "OK"))
  else if ret = 1 then
    ([Event.getE ["ret"]],
      match store ["ret"] with
      | none => .error "LookupError"
      | some v => .ok (if decode then .str v else .bytes v))
  else ([], .ok (.str ("Error " ++ toString ret ++ ": Not implemented")))

/-- A full `Driver.command` run: its event trace and outcome. -/
structure CommandRun where
  trace : List Event
  result : Except String RValue

/-- Embeds `Driver.command(self, cmd, *args)`: upper-case the name, look up the
template, map the arguments (emitting one write per mapped pair), invoke the
call interface, and interpret the status code `ret`.  A mapping
`IndexError` aborts the run after the writes already emitted. -/
def command (decode : Bool) (store : Store) (ret : Int) (cmd0 : String)
    (args : List String) : CommandRun :=
  let cmd := pyUpper cmd0
  let t := lookupTemplate cmd
  let m := mapArgs t args
  let writes := m.1.map fun pv => Event.setE pv.1 pv.2
  if m.2 then
    let resp := interpretResponse decode cmd ret store
    ⟨writes ++ Event.callE cmd :: resp.1, resp.2⟩
  else
    ⟨writes, .error "IndexError"⟩

/-- The store writes of a run, in order. -/
def setEvents (c : CommandRun) : List Event :=
  c.trace.filter Event.isSet

/-- A sample store holding the payload "5" at the fixed result path. -/
def st0 : Store := fun p => if p = ["ret"] then some "5" else none

theorem filter_isSet_writes (l : List (List String × String)) :
    (l.map fun pv => Event.setE pv.1 pv.2).filter Event.isSet
      = l.map fun pv => Event.setE pv.1 pv.2 := by
  induction l with
  | nil => rfl
  | cons a l ih => simp [Event.isSet, ih]

theorem filter_isSet_interp (d : Bool) (cmd : String) (ret : Int)
    (store : Store) :
    (interpretResponse d cmd ret store).1.filter Event.isSet = [] := by
  unfold interpretResponse
  split
  · rfl
  · split
    · rfl
    · split
      · simp [Event.isSet]
      · rfl

theorem getE_not_mem_writes (l : List (List String × String))
    (p : List String) :
    Event.getE p ∉ (l.map fun pv => Event.setE pv.1 pv.2) := by
  simp

theorem mapArgsAux_snd (t : List Entry) :
    ∀ (args : List String) (i bt : Nat),
      (mapArgsAux t args i bt).2 = true →
      (mapArgsAux t args i bt).1.map Prod.snd = args := by
  intro args
  induction args with
  | nil => intro i bt _; rfl
  | cons a rest ih =>
    intro i bt hok
    simp only [mapArgsAux] at hok ⊢
    split at hok
    · simp at hok
    · split at hok
      · simp at hok
      · simp only [List.map_cons]
        rw [ih _ _ hok]

/-- Whether a template's trailing entry exists and is not dynamic. -/
def lastNotDyn (t : List Entry) : Bool :=
  match t.getLast? with
  | some e => !e.callable
  | none => false

theorem lastNotDyn_spec {t : List Entry} (h : lastNotDyn t = true) :
    0 < t.length ∧
      ∃ e, t[t.length - 1]? = some e ∧ e.callable = false := by
  unfold lastNotDyn at h
  cases hg : t.getLast? with
  | none => rw [hg] at h; cases h
  | some e =>
    rw [hg] at h
    have hne : t ≠ [] := by
      intro he
      subst he
      simp at hg
    refine ⟨List.length_pos.mpr hne, e, ?_, ?_⟩
    · rw [← List.getLast?_eq_getElem? t, hg]
    · simpa using h

theorem excess_args_aux (t : List Entry) (hlast : lastNotDyn t = true) :
    ∀ (args : List String) (i : Nat), i ≤ t.length →
      t.length < i + args.length →
      (mapArgsAux t args i 0).2 = false ∧
      (mapArgsAux t args i 0).1.length = t.length - i := by
  intro args
  induction args with
  | nil =>
    intro i h1 h2
    simp only [List.length_nil] at h2
    omega
  | cons a rest ih =>
    intro i h1 h2
    rcases Nat.lt_or_ge i t.length with hi | hi
    · have hbt : newBacktrack t i 0 = some 0 := by
        unfold newBacktrack
        rw [if_neg (by push_cast; omega)]
      have hidx : (i : Int) - ((0 : Nat) : Int) = ((i : Nat) : Int) := by
        omega
      have hget : pyGet t ((i : Int) - ((0 : Nat) : Int)) = some t[i] := by
        rw [hidx, pyGet_ofNat, List.getElem?_eq_getElem hi]
      have hrec := ih (i + 1) (by omega)
        (by simp only [List.length_cons] at h2; omega)
      simp only [mapArgsAux, hbt, hget]
      refine ⟨hrec.1, ?_⟩
      simp only [List.length_cons, hrec.2]
      omega
    · have hieq : i = t.length := le_antisymm h1 hi
      subst hieq
      obtain ⟨hpos, e, hgl, hc⟩ := lastNotDyn_spec hlast
      have hbt : newBacktrack t t.length 0 = some 0 := by
        unfold newBacktrack
        rw [if_pos (by push_cast; omega)]
        unfold rewind
        simp only [Nat.sub_zero]
        simp only [rewindAux]
        rw [show (t.length : Int) - 1 - ((0 : Nat) : Int)
            = ((t.length - 1 : Nat) : Int) from by omega, pyGet_ofNat, hgl]
        simp [hc]
      have hget : pyGet t ((t.length : Nat) : Int) = none := by
        rw [pyGet_ofNat]
        exact List.getElem?_eq_none (le_refl _)
      simp [mapArgsAux, hbt, hget]

/-- The three-entry HSET template of `Driver.arg_names`, named for the
inductive lemmas below (definitionally equal to `lookupTemplate "HSET"`). -/
def hsetT : List Entry :=
  [.static (.str "key"),
    .dyn (fun i => .tup ["data", toString (i / 2), "field"]),
    .dyn (fun i => .tup ["data", toString (i / 2), "value"])]

theorem lookupTemplate_hset : lookupTemplate "HSET" = hsetT := rfl

theorem hsetT_length : hsetT.length = 3 := rfl

/-- The path the HSET template assigns to the 0-based argument index
`i ≥ 1`: alternating field/value components indexed by the repetition
number `(i + 1) / 2`. -/
def hsetPath (i : Nat) : List String :=
  if i % 2 = 1 then ["data", toString ((i + 1) / 2), "field"]
  else ["data", toString ((i + 1) / 2), "value"]

/-- The expected mapping of the field/value part of an HSET argument list,
starting at 0-based argument index `i`. -/
def hsetTail : List String → Nat → List (List String × String)
  | [], _ => []
  | a :: rest, i => (hsetPath i, a) :: hsetTail rest (i + 1)

theorem hsetTail_length (args : List String) :
    ∀ i : Nat, (hsetTail args i).length = args.length := by
  induction args with
  | nil => intro i; rfl
  | cons a rest ih => intro i; simp [hsetTail, ih]

theorem hsetTail_last (args : List String) :
    ∀ i : Nat, args ≠ [] →
      ((hsetTail args i).map Prod.fst).getLast?
        = some (hsetPath (i + args.length - 1)) := by
  induction args with
  | nil => intro i h; exact absurd rfl h
  | cons a rest ih =>
    intro i _
    cases rest with
    | nil => simp [hsetTail]
    | cons b rest' =>
      have := ih (i + 1) (by simp)
      simp only [hsetTail, List.map_cons] at this ⊢
      rw [List.getLast?_cons_cons, this]
      congr 2
      simp only [List.length_cons]
      omega

theorem rewindAux_step_callable {t : List Entry} {i bt : Nat} {e : Entry}
    (f : Nat) (h1 : pyGet t ((i : Int) - 1 - bt) = some e)
    (h2 : e.callable = true) :
    rewindAux t i bt (f + 1) = rewindAux t i (bt + 1) f := by
  simp [rewindAux, h1, h2]

theorem rewindAux_step_stop {t : List Entry} {i bt : Nat} {e : Entry}
    (f : Nat) (h1 : pyGet t ((i : Int) - 1 - bt) = some e)
    (h2 : e.callable = false) :
    rewindAux t i bt (f + 1) = some bt := by
  simp [rewindAux, h1, h2]

theorem rewind_hsetT_odd (i : Nat) (h3 : 3 ≤ i) :
    rewind hsetT i (i - 3) = some (i - 1) := by
  unfold rewind
  rw [hsetT_length, show 3 + i + 1 - (i - 3) = 6 + 1 from by omega]
  rw [rewindAux_step_callable 6
    (show pyGet hsetT ((i : Int) - 1 - ((i - 3 : Nat) : Int))
        = some (.dyn (fun p => .tup ["data", toString (p / 2), "value"]))
      from by rw [show (i : Int) - 1 - ((i - 3 : Nat) : Int) = (2 : Int)
        from by omega]; rfl) rfl]
  rw [show i - 3 + 1 = i - 2 from by omega, show (6 : Nat) = 5 + 1 from rfl]
  rw [rewindAux_step_callable 5
    (show pyGet hsetT ((i : Int) - 1 - ((i - 2 : Nat) : Int))
        = some (.dyn (fun p => .tup ["data", toString (p / 2), "field"]))
      from by rw [show (i : Int) - 1 - ((i - 2 : Nat) : Int) = (1 : Int)
        from by omega]; rfl) rfl]
  rw [show i - 2 + 1 = i - 1 from by omega, show (5 : Nat) = 4 + 1 from rfl]
  rw [rewindAux_step_stop 4
    (show pyGet hsetT ((i : Int) - 1 - ((i - 1 : Nat) : Int))
        = some (.static (.str "key"))
      from by rw [show (i : Int) - 1 - ((i - 1 : Nat) : Int) = (0 : Int)
        from by omega]; rfl) rfl]

theorem hset_aux :
    ∀ (args : List String) (i bt : Nat),
      (i % 2 = 1 ∧ bt = i - 3) ∨ (i % 2 = 0 ∧ 2 ≤ i ∧ bt = i - 2) →
      mapArgsAux hsetT args i bt = (hsetTail args i, true) := by
  intro args
  induction args with
  | nil => intro i bt _; rfl
  | cons a rest ih =>
    intro i bt hinv
    rcases hinv with ⟨hodd, hbt⟩ | ⟨heven, hge2, hbt⟩
    · subst hbt
      by_cases hi3 : 3 ≤ i
      · have hbtc : newBacktrack hsetT i (i - 3) = some (i - 1) := by
          unfold newBacktrack
          rw [hsetT_length,
            if_pos (show ((3 : Nat) : Int) ≤ (i : Int) - ((i - 3 : Nat) : Int)
              from by omega)]
          exact rewind_hsetT_odd i hi3
        have hsel : pyGet hsetT ((i : Int) - ((i - 1 : Nat) : Int))
            = some (.dyn (fun p => .tup ["data", toString (p / 2), "field"]))
            := by
          rw [show (i : Int) - ((i - 1 : Nat) : Int) = (1 : Int)
            from by omega]
          rfl
        simp only [mapArgsAux, hbtc, hsel]
        rw [ih (i + 1) (i - 1) (Or.inr ⟨by omega, by omega, by omega⟩)]
        simp [hsetTail, Entry.resolve, Resolved.toPath, hsetPath,
          if_pos hodd]
      · have hi1 : i = 1 := by omega
        subst hi1
        have hbtc : newBacktrack hsetT 1 (1 - 3) = some 0 := rfl
        have hsel : pyGet hsetT (((1 : Nat) : Int) - ((0 : Nat) : Int))
            = some (.dyn (fun p => .tup ["data", toString (p / 2), "field"]))
            := rfl
        simp only [mapArgsAux, hbtc, hsel]
        rw [show (1 : Nat) + 1 = 2 from rfl,
          ih 2 0 (Or.inr ⟨by omega, by omega, by omega⟩)]
        simp [hsetTail, Entry.resolve, Resolved.toPath, hsetPath]
    · subst hbt
      have hbtc : newBacktrack hsetT i (i - 2) = some (i - 2) := by
        unfold newBacktrack
        rw [hsetT_length,
          if_neg (show ¬ ((3 : Nat) : Int) ≤ (i : Int) - ((i - 2 : Nat) : Int)
            from by omega)]
      have hsel : pyGet hsetT ((i : Int) - ((i - 2 : Nat) : Int))
          = some (.dyn (fun p => .tup ["data", toString (p / 2), "value"]))
          := by
        rw [show (i : Int) - ((i - 2 : Nat) : Int) = (2 : Int) from by omega]
        rfl
      simp only [mapArgsAux, hbtc, hsel]
      rw [ih (i + 1) (i - 2) (Or.inl ⟨by omega, by omega⟩)]
      simp [hsetTail, Entry.resolve, Resolved.toPath, hsetPath,
        if_neg (show ¬ i % 2 = 1 from by omega)]

theorem hset_mapArgs_eq (key : String) (rest : List String) :
    mapArgs hsetT (key :: rest)
      = ((["key"], key) :: hsetTail rest 1, true) := by
  unfold mapArgs
  have hbtc : newBacktrack hsetT 0 0 = some 0 := rfl
  have hsel : pyGet hsetT (((0 : Nat) : Int) - ((0 : Nat) : Int))
      = some (.static (.str "key")) := rfl
  simp only [mapArgsAux, hbtc, hsel,
    hset_aux rest 1 0 (Or.inl ⟨rfl, rfl⟩)]
  simp [Entry.resolve, Resolved.toPath]

theorem command_eq_of_ok (d : Bool) (st : Store) (ret : Int) (cmd0 : String)
    (args : List String)
    (hok : (mapArgs (lookupTemplate (pyUpper cmd0)) args).2 = true) :
    command d st ret cmd0 args =
      ⟨((mapArgs (lookupTemplate (pyUpper cmd0)) args).1.map
            fun pv => Event.setE pv.1 pv.2)
          ++ Event.callE (pyUpper cmd0)
            :: (interpretResponse d (pyUpper cmd0) ret st).1,
        (interpretResponse d (pyUpper cmd0) ret st).2⟩ := by
  unfold command
  simp only [hok, if_true]

theorem interp_count (d : Bool) (cmd : String) (ret : Int) (st : Store)
    (h1 : 0 ≤ ret) (h2 : cmd ∈ countCmds) :
    interpretResponse d cmd ret st = ([], .ok (.int ret)) := by
  unfold interpretResponse
  rw [if_pos ⟨h1, h2⟩]

theorem interp_zero (d : Bool) (cmd : String) (st : Store)
    (h : cmd ∉ countCmds) :
    interpretResponse d cmd 0 st
      = ([], .ok (if d then .str "OK" else .bytes "OK")) := by
  unfold interpretResponse
  rw [if_neg (by exact fun hc => h hc.2), if_pos rfl]

theorem interp_one (d : Bool) (cmd : String) (st : Store) (v : String)
    (h : cmd ∉ countCmds) (hv : st ["ret"] = some v) :
    interpretResponse d cmd 1 st
      = ([Event.getE ["ret"]],
          .ok (if d then .str v else .bytes v)) := by
  unfold interpretResponse
  rw [if_neg (by exact fun hc => h hc.2), if_neg (by norm_num), if_pos rfl,
    hv]

theorem interp_other (d : Bool) (cmd : String) (ret : Int) (st : Store)
    (h0 : ret ≠ 0) (h1 : ret ≠ 1)
    (hc : ¬(0 ≤ ret ∧ cmd ∈ countCmds)) :
    interpretResponse d cmd ret st
      = ([], .ok (.str ("Error " ++ toString ret ++ ": Not implemented"))) := by
  unfold interpretResponse
  rw [if_neg hc, if_neg h0, if_neg h1]

end Xider

namespace Xider

/-- C1: evaluation of the code at the failing input.  For the variable-arity
delete command (DEL) with three keys, the mapping does not emit the three
pairs the spec promises: the backward walk over the all-dynamic template
wraps around via Python negative indexing and then under-runs the sequence,
so only the first pair is emitted before an IndexError aborts the run. -/
theorem del_multikey_index_error :
    mapArgs (lookupTemplate "DEL") ["k1", "k2", "k3"]
        = ([(["keys", "1"], "k1")], false) ∧
      (command true st0 0 "DEL" ["k1", "k2", "k3"]).result
        = .error "IndexError" :=
  ⟨rfl, rfl⟩

/-- C3: for the alternating-group hash-set command (HSET) with five
arguments `key, f1, v1, f2, v2`, mapping emits exactly the pairs
`(('key',), key)`, `(('data','1','field'), f1)`, `(('data','1','value'), v1)`,
`(('data','2','field'), f2)`, `(('data','2','value'), v2)` in that order,
and completes without failure. -/
theorem hset_five_args_mapping (k f1 v1 f2 v2 : String) :
    mapArgs (lookupTemplate "HSET") [k, f1, v1, f2, v2] =
      ([(["key"], k), (["data", "1", "field"], f1),
        (["data", "1", "value"], v1), (["data", "2", "field"], f2),
        (["data", "2", "value"], v2)], true) := by
  rfl

/-- C4: for a template whose trailing entry exists and is not dynamic,
given more arguments than the template's length, the mapping fails with an
out-of-range IndexError exactly at the first excess argument: every
in-range argument is mapped (none dropped), and no wrap-around to an
earlier entry produces further pairs. -/
theorem nonrepeating_template_excess_args_fail (t : List Entry)
    (args : List String) (hlast : lastNotDyn t = true)
    (hlen : t.length < args.length) :
    (mapArgs t args).2 = false ∧ (mapArgs t args).1.length = t.length := by
  have h := excess_args_aux t hlast args 0 (Nat.zero_le _) (by omega)
  unfold mapArgs
  simpa using h

theorem nonrepeating_template_excess_args_fail_witness :
    lastNotDyn arg_names_default = true ∧
      arg_names_default.length < (["a", "b", "c"] : List String).length ∧
      ((mapArgs arg_names_default ["a", "b", "c"]).2 = false ∧
        (mapArgs arg_names_default ["a", "b", "c"]).1.length
          = arg_names_default.length) :=
  ⟨rfl, by decide,
    nonrepeating_template_excess_args_fail arg_names_default ["a", "b", "c"]
      rfl (by decide)⟩

/-- C5: template lookup never fails; a name whose upper-cased form is not
registered resolves to the default `(key, value)` template, and mapping a
two-argument call against it emits exactly `(('key',), a), (('value',), b)`,
identical to the default template's output. -/
theorem unknown_command_uses_default_template (cmd0 : String)
    (h : arg_names (pyUpper cmd0) = none) (a b : String) :
    lookupTemplate (pyUpper cmd0) = arg_names_default ∧
      mapArgs (lookupTemplate (pyUpper cmd0)) [a, b]
        = mapArgs arg_names_default [a, b] ∧
      mapArgs (lookupTemplate (pyUpper cmd0)) [a, b]
        = ([(["key"], a), (["value"], b)], true) := by
  have hl : lookupTemplate (pyUpper cmd0) = arg_names_default := by
    unfold lookupTemplate
    rw [h]
    rfl
  exact ⟨hl, by rw [hl], by rw [hl]; rfl⟩

theorem unknown_command_uses_default_template_witness :
    arg_names (pyUpper "foobar") = none ∧
      (lookupTemplate (pyUpper "foobar") = arg_names_default ∧
        mapArgs (lookupTemplate (pyUpper "foobar")) ["a", "b"]
          = mapArgs arg_names_default ["a", "b"] ∧
        mapArgs (lookupTemplate (pyUpper "foobar")) ["a", "b"]
          = ([(["key"], "a"), (["value"], "b")], true)) :=
  ⟨rfl, unknown_command_uses_default_template "foobar" rfl "a" "b"⟩

/-- C2: for a nonnegative status code and a count-returning command (DEL,
HSET, HDEL, after upper-casing), `Driver.command` returns the status code
itself as an integer and performs no payload read from the store. -/
theorem count_commands_return_status (d : Bool) (st : Store) (ret : Int)
    (cmd0 : String) (args : List String)
    (hcmd : pyUpper cmd0 ∈ countCmds) (hret : 0 ≤ ret)
    (hok : (mapArgs (lookupTemplate (pyUpper cmd0)) args).2 = true) :
    (command d st ret cmd0 args).result = .ok (.int ret) ∧
      ∀ p, Event.getE p ∉ (command d st ret cmd0 args).trace := by
  rw [command_eq_of_ok d st ret cmd0 args hok,
    interp_count d (pyUpper cmd0) ret st hret hcmd]
  refine ⟨rfl, fun p => ?_⟩
  simp

theorem count_commands_return_status_witness :
    pyUpper "del" ∈ countCmds ∧ (0 : Int) ≤ 2 ∧
      (mapArgs (lookupTemplate (pyUpper "del")) ["k"]).2 = true ∧
      ((command true st0 2 "del" ["k"]).result = .ok (.int 2) ∧
        ∀ p, Event.getE p ∉ (command true st0 2 "del" ["k"]).trace) :=
  ⟨by decide, by decide, rfl,
    count_commands_return_status true st0 2 "del" ["k"] (by decide)
      (by decide) rfl⟩

/-- C6: for any status code other than 0 and 1 that is not claimed by the
count-returning rule (in particular every negative code, for every
command), `Driver.command` returns — as a value, not an exception — the
formatted string "Error {code}: Not implemented" embedding the numeric
code. -/
theorem other_status_not_implemented (d : Bool) (st : Store) (ret : Int)
    (cmd0 : String) (args : List String)
    (h0 : ret ≠ 0) (h1 : ret ≠ 1)
    (hc : ¬(0 ≤ ret ∧ pyUpper cmd0 ∈ countCmds))
    (hok : (mapArgs (lookupTemplate (pyUpper cmd0)) args).2 = true) :
    (command d st ret cmd0 args).result
      = .ok (.str ("Error " ++ toString ret ++ ": Not implemented")) := by
  rw [command_eq_of_ok d st ret cmd0 args hok,
    interp_other d (pyUpper cmd0) ret st h0 h1 hc]

theorem other_status_not_implemented_witness :
    (-3 : Int) ≠ 0 ∧ (-3 : Int) ≠ 1 ∧
      ¬((0 : Int) ≤ -3 ∧ pyUpper "get" ∈ countCmds) ∧
      (mapArgs (lookupTemplate (pyUpper "get")) ["k"]).2 = true ∧
      (command true st0 (-3) "get" ["k"]).result
        = .ok (.str "Error -3: Not implemented") :=
  ⟨by decide, by decide, by decide, rfl,
    (other_status_not_implemented true st0 (-3) "get" ["k"] (by decide)
      (by decide) (by decide) rfl).trans rfl⟩

/-- C7: for a command that is not count-returning: status 0 yields the
fixed success marker "OK" (text-decoded when the driver decodes responses,
raw bytes otherwise) with no store read, and status 1 performs exactly one
read, of the fixed path `('ret',)`, after the call-interface invocation,
returning its payload decoded per the same policy. -/
theorem status_zero_and_one_results (d : Bool) (st : Store) (cmd0 : String)
    (args : List String) (ret : Int)
    (hcmd : pyUpper cmd0 ∉ countCmds)
    (hok : (mapArgs (lookupTemplate (pyUpper cmd0)) args).2 = true) :
    (ret = 0 →
      (command d st ret cmd0 args).result
          = .ok (if d then .str "OK" else .bytes "OK") ∧
        ∀ p, Event.getE p ∉ (command d st ret cmd0 args).trace) ∧
    (∀ v, ret = 1 → st ["ret"] = some v →
      (command d st ret cmd0 args).result
          = .ok (if d then RValue.str v else .bytes v) ∧
        (command d st ret cmd0 args).trace =
          ((mapArgs (lookupTemplate (pyUpper cmd0)) args).1.map
              fun pv => Event.setE pv.1 pv.2)
            ++ [Event.callE (pyUpper cmd0), Event.getE ["ret"]]) := by
  constructor
  · intro h0
    subst h0
    rw [command_eq_of_ok d st 0 cmd0 args hok,
      interp_zero d (pyUpper cmd0) st hcmd]
    refine ⟨rfl, fun p => ?_⟩
    simp
  · intro v h1 hv
    subst h1
    rw [command_eq_of_ok d st 1 cmd0 args hok,
      interp_one d (pyUpper cmd0) st v hcmd hv]
    exact ⟨rfl, rfl⟩

theorem status_zero_and_one_results_witness :
    pyUpper "get" ∉ countCmds ∧
      (mapArgs (lookupTemplate (pyUpper "get")) ["k"]).2 = true ∧
      st0 ["ret"] = some "5" ∧
      (command true st0 0 "get" ["k"]).result = .ok (.str "OK") ∧
      (command true st0 1 "get" ["k"]).result = .ok (.str "5") ∧
      (command true st0 1 "get" ["k"]).trace
        = [Event.setE ["key"] "k", Event.callE "GET", Event.getE ["ret"]] :=
  ⟨by decide, rfl, rfl,
    (((status_zero_and_one_results true st0 "get" ["k"] 0 (by decide)
        rfl).1 rfl).1).trans rfl,
    ((((status_zero_and_one_results true st0 "get" ["k"] 1 (by decide)
        rfl).2) "5" rfl rfl).1).trans rfl,
    ((((status_zero_and_one_results true st0 "get" ["k"] 1 (by decide)
        rfl).2) "5" rfl rfl).2).trans rfl⟩

/-- C8: within one `Driver.command` run, the (path, value) pairs are
written in strict argument order (the j-th write carries the j-th
argument), and the call interface is invoked exactly once, after all
writes and before any response-phase event. -/
theorem writes_precede_call (d : Bool) (st : Store) (ret : Int)
    (cmd0 : String) (args : List String)
    (hok : (mapArgs (lookupTemplate (pyUpper cmd0)) args).2 = true) :
    (command d st ret cmd0 args).trace =
      ((mapArgs (lookupTemplate (pyUpper cmd0)) args).1.map
          fun pv => Event.setE pv.1 pv.2)
        ++ Event.callE (pyUpper cmd0)
          :: (interpretResponse d (pyUpper cmd0) ret st).1 ∧
    (mapArgs (lookupTemplate (pyUpper cmd0)) args).1.map Prod.snd = args := by
  rw [command_eq_of_ok d st ret cmd0 args hok]
  exact ⟨rfl, mapArgsAux_snd _ args 0 0 hok⟩

theorem writes_precede_call_witness :
    (mapArgs (lookupTemplate (pyUpper "hset")) ["h", "f", "v"]).2 = true ∧
      ((command true st0 1 "hset" ["h", "f", "v"]).trace =
        ((mapArgs (lookupTemplate (pyUpper "hset")) ["h", "f", "v"]).1.map
            fun pv => Event.setE pv.1 pv.2)
          ++ Event.callE (pyUpper "hset")
            :: (interpretResponse true (pyUpper "hset") 1 st0).1 ∧
      (mapArgs (lookupTemplate (pyUpper "hset")) ["h", "f", "v"]).1.map
          Prod.snd = ["h", "f", "v"]) :=
  ⟨rfl, writes_precede_call true st0 1 "hset" ["h", "f", "v"] rfl⟩

/-- C9: the argument-to-path mapping is a pure function of the pair
(template, arguments): mapping twice yields identical output, and the
writes a `command` run emits do not depend on the decode flag, the store
contents, or the returned status code — no hidden state survives across
calls. -/
theorem mapping_is_pure (t : List Entry) (args : List String)
    (cmd0 : String) (args' : List String) (d1 d2 : Bool) (st1 st2 : Store)
    (r1 r2 : Int) :
    mapArgs t args = mapArgs t args ∧
      setEvents (command d1 st1 r1 cmd0 args')
        = setEvents (command d2 st2 r2 cmd0 args') := by
  refine ⟨rfl, ?_⟩
  unfold setEvents command
  cases hm : (mapArgs (lookupTemplate (pyUpper cmd0)) args').2 with
  | false =>
    simp only [hm]
    rfl
  | true =>
    simp only [hm, if_true, List.filter_append, List.filter_cons]
    norm_num [Event.isSet, filter_isSet_interp]

/-- C10: an HSET invocation with an even argument count (a key followed by
an odd number of field/value items, so the last field has no matching
value) does not fail and is not validated for group completeness: one path
is emitted per argument, and the last emitted path is
`('data', str(n//2), 'field')` for argument count `n`, with no value pair
after it. -/
theorem hset_even_arity_dangling_field (key : String) (rest : List String)
    (hodd : rest.length % 2 = 1) :
    (mapArgs (lookupTemplate "HSET") (key :: rest)).2 = true ∧
      (mapArgs (lookupTemplate "HSET") (key :: rest)).1.length
        = (key :: rest).length ∧
      ((mapArgs (lookupTemplate "HSET") (key :: rest)).1.map
          Prod.fst).getLast?
        = some ["data", toString ((key :: rest).length / 2), "field"] := by
  rw [lookupTemplate_hset, hset_mapArgs_eq key rest]
  have hne : rest ≠ [] := by
    intro h
    rw [h] at hodd
    simp at hodd
  refine ⟨rfl, ?_, ?_⟩
  · simp [hsetTail_length]
  · simp only [List.map_cons]
    have hcons : ∃ b rest', rest = b :: rest' := by
      cases rest with
      | nil => exact absurd rfl hne
      | cons b rest' => exact ⟨b, rest', rfl⟩
    obtain ⟨b, rest', hr⟩ := hcons
    subst hr
    simp only [hsetTail, List.map_cons]
    rw [List.getLast?_cons_cons]
    have hlast := hsetTail_last (b :: rest') 1 (by simp)
    simp only [hsetTail, List.map_cons] at hlast
    rw [hlast]
    have harith : 1 + (b :: rest').length - 1 = (b :: rest').length := by
      omega
    rw [harith]
    unfold hsetPath
    rw [if_pos hodd]
    simp only [List.length_cons]

theorem hset_even_arity_dangling_field_witness :
    (["f1", "v1", "f2"] : List String).length % 2 = 1 ∧
      ((mapArgs (lookupTemplate "HSET") ["k", "f1", "v1", "f2"]).2 = true ∧
        (mapArgs (lookupTemplate "HSET") ["k", "f1", "v1", "f2"]).1.length
          = 4 ∧
        ((mapArgs (lookupTemplate "HSET") ["k", "f1", "v1", "f2"]).1.map
            Prod.fst).getLast? = some ["data", "2", "field"]) := by
  have h := hset_even_arity_dangling_field "k" ["f1", "v1", "f2"]
    (by decide)
  exact ⟨by decide, h.1, h.2.1.trans rfl, h.2.2.trans rfl⟩

end Xider
